import Mathlib

/-!
Verification of the SDF ASCII renderer (terminal-donut-rs).

The repository has two near-identical implementations: the library
(src/lib.rs) and the standalone binary (src/main.rs).  Both are embedded
here over the real numbers: every f32 value is modelled as a real number,
so all arithmetic is at infinite precision.  Where the f32 behaviour on
degenerate inputs matters (NaN produced by normalizing a zero vector, NaN
flowing through the ray-marching loop), a second, NaN-aware model is
given in which `none : Option _` stands for NaN.

Naming follows the source: `Sdf`, `SdfSphere`, `SdfBox`, `SdfDonut`,
`SdfTransform`, `estimateNormal` (estimate_normal), `lambertShading`
(lambert_shading), `castRay` (cast_ray), `renderScene` (render_scene),
`SYMBOLS`, `MAX_STEPS`, `MAX_DISTANCE`, `EPSILON`.
-/

set_option maxHeartbeats 1000000

noncomputable section

/-- glam `Vec3` with real components. -/
structure Vec3 where
  x : ℝ
  y : ℝ
  z : ℝ

instance : Add Vec3 := ⟨fun a b => ⟨a.x + b.x, a.y + b.y, a.z + b.z⟩⟩

instance : Sub Vec3 := ⟨fun a b => ⟨a.x - b.x, a.y - b.y, a.z - b.z⟩⟩

instance : Neg Vec3 := ⟨fun a => ⟨-a.x, -a.y, -a.z⟩⟩

/-- Scalar multiplication, modelling both `scalar * vec` and `vec * scalar` in glam. -/
instance : SMul ℝ Vec3 := ⟨fun s a => ⟨s * a.x, s * a.y, s * a.z⟩⟩

/-- glam `Vec3::ZERO`. -/
def Vec3.ZERO : Vec3 := ⟨0, 0, 0⟩

/-- glam `Vec3::X`. -/
def Vec3.X : Vec3 := ⟨1, 0, 0⟩

/-- glam `Vec3::Y`. -/
def Vec3.Y : Vec3 := ⟨0, 1, 0⟩

/-- glam `Vec3::Z`. -/
def Vec3.Z : Vec3 := ⟨0, 0, 1⟩

/-- glam `Vec3::NEG_Z`. -/
def Vec3.NEG_Z : Vec3 := ⟨0, 0, -1⟩

/-- glam `Vec3::NEG_Y`. -/
def Vec3.NEG_Y : Vec3 := ⟨0, -1, 0⟩

/-- glam `Vec3::dot`. -/
def Vec3.dot (a b : Vec3) : ℝ := a.x * b.x + a.y * b.y + a.z * b.z

/-- glam `Vec3::cross`. -/
def Vec3.cross (a b : Vec3) : Vec3 :=
  ⟨a.y * b.z - a.z * b.y, a.z * b.x - a.x * b.z, a.x * b.y - a.y * b.x⟩

/-- glam `Vec3::length` = sqrt of the dot product with itself. -/
def Vec3.length (v : Vec3) : ℝ := Real.sqrt (v.dot v)

/-- glam `Vec3::abs`, componentwise absolute value (used by the box SDF). -/
def Vec3.abs (v : Vec3) : Vec3 := ⟨|v.x|, |v.y|, |v.z|⟩

/-- glam `Vec3::max`, componentwise maximum (used by the box SDF). -/
def Vec3.vmax (a b : Vec3) : Vec3 := ⟨max a.x b.x, max a.y b.y, max a.z b.z⟩

/-- glam `Vec3::normalize`, `v * (1 / length v)`, at real precision.  On a
zero-length input the real model yields the zero vector; the f32 code yields a
NaN vector, which `normalizeF32` below models faithfully. -/
def Vec3.normalize (v : Vec3) : Vec3 := (1 / v.length) • v

/-- glam `Vec3::normalize_or`: the normalized vector when the length is a
positive finite number, otherwise the fallback. -/
def Vec3.normalizeOr (v fallback : Vec3) : Vec3 :=
  if v.length = 0 then fallback else (1 / v.length) • v

/-- f32-faithful `Vec3::normalize`: normalizing a zero-length vector divides
zero by zero and produces a NaN vector, modelled as `none`. -/
def normalizeF32 (v : Vec3) : Option Vec3 :=
  if v.length = 0 then none else some ((1 / v.length) • v)

/-- glam `Vec4` with real components. -/
structure Vec4 where
  x : ℝ
  y : ℝ
  z : ℝ
  w : ℝ

/-- glam `Vec4` scaled by a scalar (`axis.mul(vec.x)` inside `Mat4 * Vec4`). -/
def Vec4.scale (v : Vec4) (s : ℝ) : Vec4 := ⟨v.x * s, v.y * s, v.z * s, v.w * s⟩

/-- glam `Vec4` componentwise addition. -/
def Vec4.add4 (a b : Vec4) : Vec4 := ⟨a.x + b.x, a.y + b.y, a.z + b.z, a.w + b.w⟩

/-- glam `Vec3::extend`: promote to homogeneous coordinates. -/
def Vec3.extend (v : Vec3) (w : ℝ) : Vec4 := ⟨v.x, v.y, v.z, w⟩

/-- glam `Vec4::truncate`: drop the w coordinate. -/
def Vec4.truncate (v : Vec4) : Vec3 := ⟨v.x, v.y, v.z⟩

/-- glam `Mat4`, stored as four column vectors, as in glam. -/
structure Mat4 where
  xAxis : Vec4
  yAxis : Vec4
  zAxis : Vec4
  wAxis : Vec4

/-- glam `Mat4 * Vec4`:
`x_axis * v.x + y_axis * v.y + z_axis * v.z + w_axis * v.w`. -/
def Mat4.mulVec4 (m : Mat4) (v : Vec4) : Vec4 :=
  (((m.xAxis.scale v.x).add4 (m.yAxis.scale v.y)).add4 (m.zAxis.scale v.z)).add4
    (m.wAxis.scale v.w)

/-- glam `Mat4::from_translation`. -/
def Mat4.fromTranslation (t : Vec3) : Mat4 :=
  ⟨⟨1, 0, 0, 0⟩, ⟨0, 1, 0, 0⟩, ⟨0, 0, 1, 0⟩, ⟨t.x, t.y, t.z, 1⟩⟩

/-- The `Sdf` trait: anything with a `distance : Vec3 -> f32` method.  Trait
objects (`Box<dyn Sdf>`) are modelled as values of this structure. -/
structure Sdf where
  distance : Vec3 → ℝ

/-- `f32::MAX` = (2 - 2^-23) * 2^127, the starting accumulator of the union. -/
def f32MAX : ℝ := 340282346638528859811704183484516925440

/-- `SdfSphere` (src/lib.rs lines 41-49): `(pt - center).length() - radius`. -/
def SdfSphere (center : Vec3) (radius : ℝ) : Sdf :=
  ⟨fun pt => (pt - center).length - radius⟩

/-- `SdfBox` (src/lib.rs lines 51-64). -/
def SdfBox (center halfSize : Vec3) : Sdf :=
  ⟨fun pt =>
    ((((pt - center).abs - halfSize).vmax Vec3.ZERO)).length +
      min (max (max ((pt - center).abs - halfSize).x ((pt - center).abs - halfSize).y)
        ((pt - center).abs - halfSize).z) 0⟩

/-- `SdfDonut` (src/lib.rs lines 66-78): torus around the local Z axis. -/
def SdfDonut (center : Vec3) (radius tubeRadius : ℝ) : Sdf :=
  ⟨fun pt =>
    Real.sqrt ((Real.sqrt ((pt - center).x * (pt - center).x +
      (pt - center).y * (pt - center).y) - radius) ^ 2 + (pt - center).z ^ 2) - tubeRadius⟩

/-- The generic union `impl<I, T> Sdf for I` (src/lib.rs lines 21-33): fold
`f32::min` over the members starting from `f32::MAX`. -/
def sdfUnion (shapes : List Sdf) : Sdf :=
  ⟨fun pt => shapes.foldl (fun d inner => min d (inner.distance pt)) f32MAX⟩

/-- `SdfTransform` (src/lib.rs lines 80-89): apply the stored matrix to the
homogeneous query point and delegate to the inner field. -/
def SdfTransform (mat : Mat4) (inner : Sdf) : Sdf :=
  ⟨fun pt => inner.distance ((mat.mulVec4 (pt.extend 1)).truncate)⟩

/-- The central-difference vector computed inside `estimate_normal`
(src/lib.rs lines 91-100), with eps = 0.0001. -/
def normalGradient (scene : Sdf) (p : Vec3) : Vec3 :=
  ⟨scene.distance (p + (0.0001 : ℝ) • Vec3.X) - scene.distance (p - (0.0001 : ℝ) • Vec3.X),
   scene.distance (p + (0.0001 : ℝ) • Vec3.Y) - scene.distance (p - (0.0001 : ℝ) • Vec3.Y),
   scene.distance (p + (0.0001 : ℝ) • Vec3.Z) - scene.distance (p - (0.0001 : ℝ) • Vec3.Z)⟩

/-- `estimate_normal` (src/lib.rs line 101): plain `normalize` of the
gradient, real-precision model. -/
def estimateNormal (scene : Sdf) (p : Vec3) : Vec3 :=
  (normalGradient scene p).normalize

/-- f32-faithful `estimate_normal`: `normalize` of a zero gradient produces a
NaN normal (`none`); there is no fallback direction in the source. -/
def estimateNormalF32 (scene : Sdf) (p : Vec3) : Option Vec3 :=
  normalizeF32 (normalGradient scene p)

/-- `lambert_shading` in src/lib.rs line 104-106: `normal.dot(-light_dir).max(0.0)`. -/
def lambertShading (normal lightDir : Vec3) : ℝ := max (normal.dot (-lightDir)) 0

/-- `lambert_shading` in src/main.rs lines 62-64: `normal.dot(light_dir).max(0.0)`
(no negation of the light direction). -/
def lambertShadingMain (normal lightDir : Vec3) : ℝ := max (normal.dot lightDir) 0

/-- The NaN-aware shading applied to a possibly-NaN normal: a NaN normal makes
the dot product NaN, and Rust `f32::max(NaN, 0.0)` returns `0.0`, so the
shading term collapses to `0`. -/
def lambertF32 (normal : Option Vec3) (lightDir : Vec3) : ℝ :=
  match normal with
  | none => 0
  | some n => max (n.dot (-lightDir)) 0

/-- `MAX_STEPS` (src/lib.rs line 5). -/
def MAX_STEPS : ℕ := 100

/-- `MAX_DISTANCE` (src/lib.rs line 6). -/
def MAX_DISTANCE : ℝ := 100

/-- `EPSILON` (src/lib.rs line 7). -/
def EPSILON : ℝ := 0.01

/-- The `cast_ray` loop (src/lib.rs lines 108-126).  The fuel argument is
`MAX_STEPS - step`, so fuel 0 is exactly the `step < MAX_STEPS` guard
failing; the other guard `total_distance_traveled < MAX_DISTANCE` is the
`if` below. -/
def castRayAux (scene : Sdf) (ray lightDir : Vec3) : ℕ → ℝ → Vec3 → ℝ
  | 0, _, _ => 0
  | n + 1, total, p =>
    if total < MAX_DISTANCE then
      if scene.distance p < EPSILON then
        0.1 + lambertShading (estimateNormal scene p) lightDir * 0.9
      else
        castRayAux scene ray lightDir n (total + scene.distance p) (p + scene.distance p • ray)
    else 0

/-- `cast_ray` entry point: step = 0, total = 0, current point = start. -/
def castRay (scene : Sdf) (start ray lightDir : Vec3) : ℝ :=
  castRayAux scene ray lightDir MAX_STEPS 0 start

/-- The point reached by the marching loop after k non-terminal steps:
`current_point += ray * current_distance` (src/lib.rs line 121). -/
def marchPoint (scene : Sdf) (start ray : Vec3) : ℕ → Vec3
  | 0 => start
  | k + 1 =>
    marchPoint scene start ray k +
      scene.distance (marchPoint scene start ray k) • ray

/-- The accumulated `total_distance_traveled` after k non-terminal steps
(src/lib.rs line 120). -/
def marchTotal (scene : Sdf) (start ray : Vec3) : ℕ → ℝ
  | 0 => 0
  | k + 1 =>
    marchTotal scene start ray k + scene.distance (marchPoint scene start ray k)

/-- The loop hits the surface at iteration k: iteration k is reached (every
earlier iteration passed both guards and was non-terminal) and the distance
there is below `EPSILON`.  Since distances may be negative, `marchTotal` need
not be monotone, so reaching iteration k requires the guard at every
iteration up to k. -/
def hitAt (scene : Sdf) (start ray : Vec3) (k : ℕ) : Prop :=
  k < MAX_STEPS ∧
  (∀ j ≤ k, marchTotal scene start ray j < MAX_DISTANCE) ∧
  (∀ j < k, EPSILON ≤ scene.distance (marchPoint scene start ray j)) ∧
  scene.distance (marchPoint scene start ray k) < EPSILON

/-!
NaN-aware model of the `cast_ray` loop, for the termination claim.  Scalars
are `Option ℝ` with `none` standing for NaN; points are `Option Vec3` with
`none` standing for a vector with NaN components.  The distance field is an
arbitrary function `Option Vec3 → Option ℝ`, covering fields that return NaN
or any real number (including negative values) at any point.  Rust f32
comparisons with NaN are false, so a NaN `total` fails the
`total < MAX_DISTANCE` guard and a NaN distance fails `d < EPSILON`.
-/

/-- f32 subtraction with NaN propagation. -/
def oSub : Option ℝ → Option ℝ → Option ℝ
  | some a, some b => some (a - b)
  | _, _ => none

/-- Shift a possibly-NaN point by a real vector; NaN stays NaN. -/
def oShift (p : Option Vec3) (v : Vec3) : Option Vec3 := p.map (fun q => q + v)

/-- The central-difference gradient of `estimate_normal`, NaN-aware. -/
def normalGradientF32 (dist : Option Vec3 → Option ℝ) (p : Option Vec3) : Option Vec3 :=
  match oSub (dist (oShift p ((0.0001 : ℝ) • Vec3.X))) (dist (oShift p (-((0.0001 : ℝ) • Vec3.X)))),
        oSub (dist (oShift p ((0.0001 : ℝ) • Vec3.Y))) (dist (oShift p (-((0.0001 : ℝ) • Vec3.Y)))),
        oSub (dist (oShift p ((0.0001 : ℝ) • Vec3.Z))) (dist (oShift p (-((0.0001 : ℝ) • Vec3.Z)))) with
  | some a, some b, some c => normalizeF32 ⟨a, b, c⟩
  | _, _, _ => none

/-- NaN-aware `cast_ray` body.  Returns the pixel intensity together with the
number of times the loop body was entered.  Fuel is `MAX_STEPS - step`
exactly as in `castRayAux`. -/
def castRayF32Aux (dist : Option Vec3 → Option ℝ) (ray lightDir : Vec3) :
    ℕ → Option ℝ → Option Vec3 → ℝ × ℕ
  | 0, _, _ => (0, 0)
  | n + 1, total, p =>
    match total with
    | none => (0, 0)
    | some t =>
      if t < MAX_DISTANCE then
        match dist p with
        | none =>
          let r := castRayF32Aux dist ray lightDir n none none
          (r.1, r.2 + 1)
        | some d =>
          if d < EPSILON then
            (0.1 + lambertF32 (normalGradientF32 dist p) lightDir * 0.9, 1)
          else
            let r := castRayF32Aux dist ray lightDir n (some (t + d)) (oShift p (d • ray))
            (r.1, r.2 + 1)
      else (0, 0)

/-- NaN-aware `cast_ray` entry point, returning (intensity, loop iterations). -/
def castRayF32 (dist : Option Vec3 → Option ℝ) (start ray lightDir : Vec3) : ℝ × ℕ :=
  castRayF32Aux dist ray lightDir MAX_STEPS (some 0) (some start)

/-- The `Scene` struct (src/lib.rs lines 176-183). -/
structure Scene where
  scene : Sdf
  camera_pos : Vec3
  look_at : Vec3
  camera_up : Vec3
  camera_size : ℝ
  light_dir : Vec3

/-- The forward vector computed by `render_scene` in src/lib.rs line 140.
Note: the source subtracts `camera_pos` from `camera_up`, not from
`look_at`; the `look_at` field of `Scene` is never read. -/
def renderForward (s : Scene) : Vec3 :=
  (s.camera_up - s.camera_pos).normalizeOr Vec3.NEG_Z

/-- The forward vector computed by `render_scene` in src/main.rs line 103:
`(camera_look_at - camera).normalize_or(Vec3::NEG_Z)`. -/
def renderForwardMain (camera cameraLookAt : Vec3) : Vec3 :=
  (cameraLookAt - camera).normalizeOr Vec3.NEG_Z

/-- The right vector of the camera basis (src/lib.rs line 141). -/
def renderRight (s : Scene) : Vec3 :=
  ((renderForward s).cross s.camera_up).normalizeOr Vec3.X

/-- The up vector of the camera basis (src/lib.rs line 142). -/
def renderUp (s : Scene) : Vec3 :=
  ((renderForward s).cross (renderRight s)).normalizeOr Vec3.NEG_Y

/-- `(camera_width, camera_height)` (src/lib.rs lines 144-154).  Rust
`screen_width > screen_height` is `h < w` here.  When a screen dimension is
zero the real-number division yields 0 where f32 would overflow, but in that
case the corresponding pixel loop is empty and the value is never used. -/
def cameraDims (s : Scene) (w h : ℕ) (aspect : ℝ) : ℝ × ℝ :=
  if h < w then (s.camera_size * (w : ℝ) / (h : ℝ) * aspect, s.camera_size)
  else (s.camera_size, s.camera_size * (h : ℝ) / (w : ℝ) / aspect)

/-- The per-pixel intensity of `render_scene` (src/lib.rs lines 162-166):
offset the camera position along right and up, and cast a ray in the forward
direction.  The basis and camera dimensions are pure, so recomputing them per
pixel is equivalent to the source hoisting them out of the loop. -/
def pixelIntensity (s : Scene) (w h : ℕ) (aspect : ℝ) (sx sy : ℕ) : ℝ :=
  castRay s.scene
    ((s.camera_pos +
        ((cameraDims s w h aspect).1 * ((sx : ℝ) / (w : ℝ) - 0.5)) • renderRight s) +
      (s.camera_pos +
        ((cameraDims s w h aspect).2 * ((sy : ℝ) / (h : ℝ) - 0.5)) • renderUp s))
    (renderForward s) s.light_dir

/-- `SYMBOLS` (src/lib.rs line 8), the 15-glyph ramp. -/
def SYMBOLS : List Char :=
  [' ', '.', ',', ':', ';', 'i', '1', 't', 'f', 'L', 'C', 'G', '0', '8', '@']

/-- The glyph index (src/lib.rs lines 167-168):
`((intensity.clamp(0.0, 1.0) * SYMBOLS.len() as f32) as usize).clamp(0, SYMBOLS.len() - 1)`.
The f32-to-usize cast truncates toward zero, i.e. `Nat.floor` on a
nonnegative value; the lower clamp bound 0 is a no-op on ℕ. -/
def charIndex (intensity : ℝ) : ℕ :=
  min (Nat.floor (min (max intensity 0) 1 * (SYMBOLS.length : ℝ))) (SYMBOLS.length - 1)

/-- `render_scene` (src/lib.rs lines 134-174): row-major, y outer, x inner,
one glyph appended per pixel.  The newline write in the source is commented
out, so no row separators are emitted. -/
def renderScene (s : Scene) (w h : ℕ) (aspect : ℝ) : List Char :=
  (List.range h).foldl
    (fun buffer sy =>
      (List.range w).foldl
        (fun buffer2 sx =>
          buffer2 ++ [SYMBOLS.getD (charIndex (pixelIntensity s w h aspect sx sy)) ' '])
        buffer)
    []

/-- A concrete scene matching the reference camera of the spec: camera at
(0,0,20) looking at the origin with up (0,1,0). -/
def demoScene : Scene :=
  ⟨SdfSphere Vec3.ZERO 1, ⟨0, 0, 20⟩, Vec3.ZERO, ⟨0, 1, 0⟩, 20, ⟨1, -1, -1⟩⟩

/-- Union of two unit spheres placed symmetrically about the origin; its
distance field has an exactly zero central-difference gradient at the origin. -/
def twoUnitSpheres : Sdf :=
  sdfUnion [SdfSphere ⟨-1, 0, 0⟩ 1, SdfSphere ⟨1, 0, 0⟩ 1]

/-- A degenerate scene (empty union, zero camera data) used to evaluate the
frame renderer on a 1-by-1 screen. -/
def emptyScene : Scene := ⟨sdfUnion [], Vec3.ZERO, Vec3.ZERO, Vec3.ZERO, 0, Vec3.ZERO⟩

end

/-! ## Componentwise lemmas for the vector operations -/

@[simp] theorem Vec3.add_def (a b : Vec3) : a + b = ⟨a.x + b.x, a.y + b.y, a.z + b.z⟩ := rfl

@[simp] theorem Vec3.sub_def (a b : Vec3) : a - b = ⟨a.x - b.x, a.y - b.y, a.z - b.z⟩ := rfl

@[simp] theorem Vec3.neg_def (a : Vec3) : -a = ⟨-a.x, -a.y, -a.z⟩ := rfl

@[simp] theorem Vec3.smul_def (s : ℝ) (a : Vec3) : s • a = ⟨s * a.x, s * a.y, s * a.z⟩ := rfl

/-- The length of a nonnegative scalar multiple. -/
theorem Vec3.length_smul (r : ℝ) (hr : 0 ≤ r) (u : Vec3) : (r • u).length = r * u.length := by
  simp only [Vec3.length, Vec3.dot, Vec3.smul_def]
  rw [show r * u.x * (r * u.x) + r * u.y * (r * u.y) + r * u.z * (r * u.z) =
    (r * r) * (u.x * u.x + u.y * u.y + u.z * u.z) from by ring]
  rw [Real.sqrt_mul (mul_self_nonneg r), Real.sqrt_mul_self hr]

/-- Evaluate a square root by exhibiting the square. -/
theorem sqrt_eval {A b : ℝ} (hb : 0 ≤ b) (h : A = b * b) : Real.sqrt A = b := by
  rw [h, Real.sqrt_mul_self hb]

/-- The two-sphere union's distance, unfolded. -/
theorem twoSpheres_dist (q : Vec3) :
    twoUnitSpheres.distance q =
      min (min f32MAX ((q - ⟨-1, 0, 0⟩).length - 1)) ((q - ⟨1, 0, 0⟩).length - 1) := rfl

/-- The central-difference gradient of the two-sphere union vanishes exactly
at the origin: the x-differences agree by the min with the nearer sphere, and
the y- and z-differences are mirror-symmetric. -/
theorem normalGradient_twoUnitSpheres :
    normalGradient twoUnitSpheres ⟨0, 0, 0⟩ = ⟨0, 0, 0⟩ := by
  have hxp : twoUnitSpheres.distance ((⟨0, 0, 0⟩ : Vec3) + (0.0001 : ℝ) • Vec3.X) = -0.0001 := by
    rw [twoSpheres_dist]
    have e1 : (((⟨0, 0, 0⟩ : Vec3) + (0.0001 : ℝ) • Vec3.X) - ⟨-1, 0, 0⟩).length = 1.0001 := by
      simp only [Vec3.X, Vec3.smul_def, Vec3.add_def, Vec3.sub_def, Vec3.length, Vec3.dot]
      exact sqrt_eval (by norm_num) (by norm_num)
    have e2 : (((⟨0, 0, 0⟩ : Vec3) + (0.0001 : ℝ) • Vec3.X) - ⟨1, 0, 0⟩).length = 0.9999 := by
      simp only [Vec3.X, Vec3.smul_def, Vec3.add_def, Vec3.sub_def, Vec3.length, Vec3.dot]
      exact sqrt_eval (by norm_num) (by norm_num)
    rw [e1, e2]
    norm_num [f32MAX, min_def]
  have hxm : twoUnitSpheres.distance ((⟨0, 0, 0⟩ : Vec3) - (0.0001 : ℝ) • Vec3.X) = -0.0001 := by
    rw [twoSpheres_dist]
    have e1 : (((⟨0, 0, 0⟩ : Vec3) - (0.0001 : ℝ) • Vec3.X) - ⟨-1, 0, 0⟩).length = 0.9999 := by
      simp only [Vec3.X, Vec3.smul_def, Vec3.sub_def, Vec3.length, Vec3.dot]
      exact sqrt_eval (by norm_num) (by norm_num)
    have e2 : (((⟨0, 0, 0⟩ : Vec3) - (0.0001 : ℝ) • Vec3.X) - ⟨1, 0, 0⟩).length = 1.0001 := by
      simp only [Vec3.X, Vec3.smul_def, Vec3.sub_def, Vec3.length, Vec3.dot]
      exact sqrt_eval (by norm_num) (by norm_num)
    rw [e1, e2]
    norm_num [f32MAX, min_def]
  have hy : twoUnitSpheres.distance ((⟨0, 0, 0⟩ : Vec3) + (0.0001 : ℝ) • Vec3.Y) =
      twoUnitSpheres.distance ((⟨0, 0, 0⟩ : Vec3) - (0.0001 : ℝ) • Vec3.Y) := by
    rw [twoSpheres_dist, twoSpheres_dist]
    norm_num [Vec3.Y, Vec3.length, Vec3.dot]
  have hz : twoUnitSpheres.distance ((⟨0, 0, 0⟩ : Vec3) + (0.0001 : ℝ) • Vec3.Z) =
      twoUnitSpheres.distance ((⟨0, 0, 0⟩ : Vec3) - (0.0001 : ℝ) • Vec3.Z) := by
    rw [twoSpheres_dist, twoSpheres_dist]
    norm_num [Vec3.Z, Vec3.length, Vec3.dot]
  unfold normalGradient
  rw [Vec3.mk.injEq]
  refine ⟨?_, ?_, ?_⟩
  · rw [hxp, hxm]; norm_num
  · rw [hy]; exact sub_self _
  · rw [hz]; exact sub_self _

/-- The zero vector has zero length. -/
theorem length_zero_vec : (⟨0, 0, 0⟩ : Vec3).length = 0 := by
  simp only [Vec3.length, Vec3.dot]
  norm_num [Real.sqrt_zero]

/-- The iteration count of the NaN-aware loop body is bounded by the fuel. -/
theorem castRayF32Aux_count_le (dist : Option Vec3 → Option ℝ) (ray lightDir : Vec3) :
    ∀ (n : ℕ) (total : Option ℝ) (p : Option Vec3),
      (castRayF32Aux dist ray lightDir n total p).2 ≤ n := by
  intro n
  induction n with
  | zero => intro total p; simp [castRayF32Aux]
  | succ n ih =>
    intro total p
    rcases total with _ | t
    · simp [castRayF32Aux]
    · simp only [castRayF32Aux]
      split
      · split
        · exact Nat.succ_le_succ (ih none none)
        · split
          · simp
          · exact Nat.succ_le_succ (ih _ _)
      · simp

/-- One unfolding step of the `cast_ray` loop. -/
theorem castRayAux_succ (s : Sdf) (ray lightDir : Vec3) (n : ℕ) (total : ℝ) (p : Vec3) :
    castRayAux s ray lightDir (n + 1) total p =
      if total < MAX_DISTANCE then
        if s.distance p < EPSILON then
          0.1 + lambertShading (estimateNormal s p) lightDir * 0.9
        else castRayAux s ray lightDir n (total + s.distance p) (p + s.distance p • ray)
      else 0 := rfl

/-- Running the loop across k non-terminal iterations (each passing both
guards and seeing a distance of at least `EPSILON`) consumes k units of fuel
and moves the state to stage k. -/
theorem castRayAux_walk (s : Sdf) (start ray lightDir : Vec3) :
    ∀ (k n : ℕ),
      (∀ j < k, marchTotal s start ray j < MAX_DISTANCE ∧
        EPSILON ≤ s.distance (marchPoint s start ray j)) →
      castRayAux s ray lightDir (n + k) (marchTotal s start ray 0) (marchPoint s start ray 0) =
        castRayAux s ray lightDir n (marchTotal s start ray k) (marchPoint s start ray k) := by
  intro k
  induction k with
  | zero => intro n _; rfl
  | succ k ih =>
    intro n H
    rw [show n + (k + 1) = (n + 1) + k from by omega]
    rw [ih (n + 1) (fun j hj => H j (by omega))]
    rw [castRayAux_succ, if_pos (H k (by omega)).1, if_neg (not_lt.mpr (H k (by omega)).2)]
    rfl

/-- If no iteration ever hits, the loop returns 0. -/
theorem castRayAux_miss (s : Sdf) (start ray lightDir : Vec3)
    (H : ∀ k, ¬ hitAt s start ray k) :
    ∀ (n i : ℕ), n + i ≤ MAX_STEPS →
      (∀ j < i, marchTotal s start ray j < MAX_DISTANCE ∧
        EPSILON ≤ s.distance (marchPoint s start ray j)) →
      castRayAux s ray lightDir n (marchTotal s start ray i) (marchPoint s start ray i) = 0 := by
  intro n
  induction n with
  | zero => intro i _ _; rfl
  | succ n ih =>
    intro i hle Hreach
    have hle' : n + 1 + i ≤ 100 := hle
    rw [castRayAux_succ]
    by_cases hT : marchTotal s start ray i < MAX_DISTANCE
    · rw [if_pos hT]
      by_cases hdist : s.distance (marchPoint s start ray i) < EPSILON
      · exfalso
        apply H i
        refine ⟨?_, ?_, ?_, hdist⟩
        · show i < 100
          omega
        · intro j hj
          rcases Nat.lt_or_ge j i with hji | hji
          · exact (Hreach j hji).1
          · rw [show j = i from by omega]
            exact hT
        · intro j hj
          exact (Hreach j hj).2
      · rw [if_neg hdist]
        have hstep : castRayAux s ray lightDir n
            (marchTotal s start ray i + s.distance (marchPoint s start ray i))
            (marchPoint s start ray i + s.distance (marchPoint s start ray i) • ray) =
            castRayAux s ray lightDir n
              (marchTotal s start ray (i + 1)) (marchPoint s start ray (i + 1)) := rfl
        rw [hstep]
        apply ih (i + 1) (by omega)
        intro j hj
        rcases Nat.lt_or_ge j i with hji | hji
        · exact Hreach j hji
        · rw [show j = i from by omega]
          exact ⟨hT, not_lt.mp hdist⟩
    · rw [if_neg hT]

/-! ## Claim theorems -/

/-- Claim C4: the ray marcher advances each non-terminal step by
`ray * distance` (first conjunct); it returns the hit intensity
`0.1 + shading * 0.9` exactly when some iteration k is reached with distance
below `EPSILON`, with every guard passed on the way (all totals below
`MAX_DISTANCE` and fewer than `MAX_STEPS` steps taken), shading being
computed from the estimated normal at the reached point (second conjunct);
otherwise it returns exactly 0 (third conjunct). -/
theorem castRay_characterization (s : Sdf) (start ray lightDir : Vec3) :
    (∀ k, marchPoint s start ray (k + 1) =
      marchPoint s start ray k + s.distance (marchPoint s start ray k) • ray) ∧
    (∀ k, hitAt s start ray k →
      castRay s start ray lightDir =
        0.1 + lambertShading (estimateNormal s (marchPoint s start ray k)) lightDir * 0.9) ∧
    ((∀ k, ¬ hitAt s start ray k) → castRay s start ray lightDir = 0) := by
  refine ⟨fun k => rfl, ?_, ?_⟩
  · intro k hk
    obtain ⟨hks, hTot, hEps, hdist⟩ := hk
    have hks' : k < 100 := hks
    have hsplit : MAX_STEPS = 100 - k - 1 + 1 + k := by
      show (100 : ℕ) = 100 - k - 1 + 1 + k
      omega
    unfold castRay
    rw [hsplit]
    have hwalk := castRayAux_walk s start ray lightDir k (100 - k - 1 + 1)
      (fun j hj => ⟨hTot j (Nat.le_of_lt hj), hEps j hj⟩)
    show castRayAux s ray lightDir (100 - k - 1 + 1 + k)
        (marchTotal s start ray 0) (marchPoint s start ray 0) =
      0.1 + lambertShading (estimateNormal s (marchPoint s start ray k)) lightDir * 0.9
    rw [hwalk]
    rw [castRayAux_succ, if_pos (hTot k (le_refl k)), if_pos hdist]
  · intro H
    exact castRayAux_miss s start ray lightDir H MAX_STEPS 0 (by norm_num)
      (fun j hj => absurd hj (Nat.not_lt_zero j))

/-- Folding a snoc-append over a list is the map. -/
theorem foldl_snoc_eq (g : ℕ → Char) (cols : List ℕ) :
    ∀ init : List Char,
      cols.foldl (fun acc sx => acc ++ [g sx]) init = init ++ cols.map g := by
  induction cols with
  | nil => intro init; simp
  | cons c cs ih =>
    intro init
    simp only [List.foldl_cons, List.map_cons]
    rw [ih]
    simp

/-- The nested pixel loops of `render_scene` produce the row-major
concatenation of the per-row maps. -/
theorem foldl_grid_eq (g : ℕ → ℕ → Char) (rows : List ℕ) :
    ∀ (init : List Char) (cols : List ℕ),
      rows.foldl
        (fun buffer sy => cols.foldl (fun buffer2 sx => buffer2 ++ [g sx sy]) buffer) init =
        init ++ rows.flatMap (fun sy => cols.map (fun sx => g sx sy)) := by
  induction rows with
  | nil => intro init cols; simp
  | cons r rs ih =>
    intro init cols
    simp only [List.foldl_cons, List.flatMap_cons]
    rw [foldl_snoc_eq (fun sx => g sx r) cols init]
    rw [ih]
    simp

/-- `render_scene` as a flat list of glyphs, row-major. -/
theorem renderScene_eq_bind (s : Scene) (w h : ℕ) (aspect : ℝ) :
    renderScene s w h aspect =
      (List.range h).flatMap (fun sy => (List.range w).map (fun sx =>
        SYMBOLS.getD (charIndex (pixelIntensity s w h aspect sx sy)) ' ')) := by
  unfold renderScene
  rw [foldl_grid_eq]
  simp

/-- `getD` at an in-bounds index is a member of the list. -/
theorem getD_mem_of_lt {α : Type} :
    ∀ (l : List α) (n : ℕ) (d : α), n < l.length → l.getD n d ∈ l := by
  intro l
  induction l with
  | nil => intro n d h; simp at h
  | cons a l ih =>
    intro n d h
    cases n with
    | zero => simp [List.getD]
    | succ n =>
      have : l.getD n d ∈ l := ih n d (by simpa using h)
      simp only [List.getD_cons_succ]
      exact List.mem_cons_of_mem a this

/-- The glyph index is always within the 15-symbol ramp. -/
theorem charIndex_lt (intensity : ℝ) : charIndex intensity < SYMBOLS.length := by
  unfold charIndex
  have h15 : SYMBOLS.length = 15 := rfl
  rw [h15]
  have hmin := Nat.min_le_right
    (Nat.floor (min (max intensity 0) 1 * ((15 : ℕ) : ℝ))) (15 - 1)
  omega

/-- `charIndex` with the ramp length evaluated. -/
theorem charIndex_formula (intensity : ℝ) :
    charIndex intensity = min (Nat.floor (min (max intensity 0) 1 * 15)) 14 := by
  unfold charIndex
  norm_num [SYMBOLS]

/-- Claim C7: for every scene, width, height and aspect, the frame renderer
produces exactly `w * h` glyphs (the row-separator write is commented out in
the source, so the chosen convention is no separators), every glyph belongs
to the 15-symbol ramp, and the buffer is the row-major grid whose glyph at
(sx, sy) has index `clamp(floor(clamp(intensity, 0, 1) * 15), 0, 14)` (the
lower clamp bound is a no-op on ℕ). -/
theorem renderScene_buffer_spec (s : Scene) (w h : ℕ) (aspect : ℝ) :
    (renderScene s w h aspect).length = w * h ∧
    (∀ c ∈ renderScene s w h aspect, c ∈ SYMBOLS) ∧
    renderScene s w h aspect =
      (List.range h).flatMap (fun sy => (List.range w).map (fun sx =>
        SYMBOLS.getD
          (min (Nat.floor (min (max (pixelIntensity s w h aspect sx sy) 0) 1 * 15)) 14)
          ' ')) := by
  have hb := renderScene_eq_bind s w h aspect
  refine ⟨?_, ?_, ?_⟩
  · rw [hb]
    simp only [List.length_flatMap, Function.comp_def, List.length_map, List.length_range]
    simp [List.map_const', List.sum_replicate, smul_eq_mul, Nat.mul_comm]
  · intro c hc
    rw [hb] at hc
    simp only [List.mem_flatMap, List.mem_map] at hc
    obtain ⟨sy, _hsy, sx, _hsx, rfl⟩ := hc
    exact getD_mem_of_lt SYMBOLS _ ' ' (charIndex_lt _)
  · rw [hb]
    simp only [charIndex_formula]

/-- The empty-union field makes every ray miss: the first loop iteration sees
distance `f32::MAX`, which exceeds `EPSILON`, and the accumulated total
`f32::MAX` then fails the `MAX_DISTANCE` guard. -/
theorem castRay_emptyUnion (start ray lightDir : Vec3) :
    castRay (sdfUnion []) start ray lightDir = 0 := by
  have hd : ∀ q : Vec3, (sdfUnion []).distance q = f32MAX := fun _ => rfl
  show castRayAux (sdfUnion []) ray lightDir (99 + 1) 0 start = 0
  rw [castRayAux_succ, if_pos (show (0 : ℝ) < MAX_DISTANCE from by norm_num [MAX_DISTANCE]),
    hd start, if_neg (show ¬(f32MAX < EPSILON) from by norm_num [f32MAX, EPSILON])]
  show castRayAux (sdfUnion []) ray lightDir (98 + 1) (0 + f32MAX) (start + f32MAX • ray) = 0
  rw [castRayAux_succ,
    if_neg (show ¬((0 + f32MAX : ℝ) < MAX_DISTANCE) from by norm_num [f32MAX, MAX_DISTANCE])]

/-- Every pixel of the degenerate scene misses. -/
theorem pixelIntensity_emptyScene : pixelIntensity emptyScene 1 1 1 0 0 = 0 :=
  castRay_emptyUnion _ _ _

/-- The degenerate scene renders a single blank glyph on a 1-by-1 screen. -/
theorem renderScene_emptyScene : renderScene emptyScene 1 1 1 = [' '] := by
  rw [renderScene_eq_bind]
  rw [show List.range 1 = [0] from rfl]
  simp only [List.flatMap_cons, List.flatMap_nil, List.map_cons, List.map_nil, List.append_nil]
  rw [pixelIntensity_emptyScene]
  have h0 : charIndex 0 = 0 := by
    rw [charIndex_formula]
    norm_num
  rw [h0]
  rfl

/-- Witness for C7: the blank glyph of the 1-by-1 rendering of the degenerate
scene is a member of the ramp. -/
theorem renderScene_buffer_spec_witness :
    (' ' ∈ renderScene emptyScene 1 1 1) ∧ ' ' ∈ SYMBOLS := by
  constructor
  · rw [renderScene_emptyScene]
    simp
  · exact (renderScene_buffer_spec emptyScene 1 1 1).2.1 ' '
      (by rw [renderScene_emptyScene]; simp)

/-- Witness for C4: a ray starting on the surface of a radius-5 sphere hits
at iteration 0 and returns the hit intensity. -/
theorem castRay_characterization_witness :
    hitAt (SdfSphere Vec3.ZERO 5) ⟨0, 0, 5⟩ ⟨0, 0, -1⟩ 0 ∧
    castRay (SdfSphere Vec3.ZERO 5) ⟨0, 0, 5⟩ ⟨0, 0, -1⟩ ⟨0, 0, 1⟩ =
      0.1 + lambertShading (estimateNormal (SdfSphere Vec3.ZERO 5)
        (marchPoint (SdfSphere Vec3.ZERO 5) ⟨0, 0, 5⟩ ⟨0, 0, -1⟩ 0)) ⟨0, 0, 1⟩ * 0.9 := by
  have hd0 : (SdfSphere Vec3.ZERO 5).distance
      (marchPoint (SdfSphere Vec3.ZERO 5) ⟨0, 0, 5⟩ ⟨0, 0, -1⟩ 0) = 0 := by
    show (SdfSphere Vec3.ZERO 5).distance ⟨0, 0, 5⟩ = 0
    simp only [SdfSphere, Vec3.ZERO, Vec3.sub_def, Vec3.length, Vec3.dot]
    rw [sub_eq_zero]
    exact sqrt_eval (by norm_num) (by norm_num)
  have hhit : hitAt (SdfSphere Vec3.ZERO 5) ⟨0, 0, 5⟩ ⟨0, 0, -1⟩ 0 := by
    refine ⟨by norm_num [MAX_STEPS], ?_, ?_, ?_⟩
    · intro j hj
      rw [show j = 0 from by omega]
      show (0 : ℝ) < MAX_DISTANCE
      norm_num [MAX_DISTANCE]
    · intro j hj
      exact absurd hj (Nat.not_lt_zero j)
    · rw [hd0]
      norm_num [EPSILON]
  exact ⟨hhit, (castRay_characterization (SdfSphere Vec3.ZERO 5)
    ⟨0, 0, 5⟩ ⟨0, 0, -1⟩ ⟨0, 0, 1⟩).2.1 0 hhit⟩

/-- Claim C10: evaluating the union of an empty collection of fields at any
point is total and returns `f32::MAX` — the loop body never runs and the
accumulator keeps its initial value.  (Totality holds by construction: the
model is a total Lean function, as the Rust loop is a plain for-loop.) -/
theorem sdfUnion_empty_total : ∀ p : Vec3, (sdfUnion []).distance p = f32MAX :=
  fun _ => rfl

/-- Claim C6 (amended): wrapping a field F in a transform node whose matrix is
the translation by t and evaluating at p yields F evaluated at `p + t` — the
node applies its matrix directly to the query point, so the stored matrix is
the world-to-local (inverse) placement map. -/
theorem sdfTransform_translation_spec (F : Sdf) (t p : Vec3) :
    (SdfTransform (Mat4.fromTranslation t) F).distance p = F.distance (p + t) := by
  simp only [SdfTransform, Mat4.fromTranslation, Mat4.mulVec4, Vec4.scale, Vec4.add4,
    Vec3.extend, Vec4.truncate, Vec3.add_def]
  congr 1
  rw [Vec3.mk.injEq]
  refine ⟨by ring, by ring, by ring⟩

/-- Claim C6, counterexample to the original statement: for F the unit sphere
at the origin and t = (1,0,0), the transform node with matrix
`from_translation t` evaluated at p = (1,0,0) gives distance 1 (it evaluates
F at p + t = (2,0,0)), while F evaluated at p - t = (0,0,0) gives -1. -/
theorem sdfTransform_translation_cex :
    (SdfTransform (Mat4.fromTranslation ⟨1, 0, 0⟩) (SdfSphere Vec3.ZERO 1)).distance ⟨1, 0, 0⟩ = 1 ∧
    (SdfSphere Vec3.ZERO 1).distance ((⟨1, 0, 0⟩ : Vec3) - ⟨1, 0, 0⟩) = -1 ∧
    (SdfSphere Vec3.ZERO 1).distance ((⟨1, 0, 0⟩ : Vec3) - ⟨1, 0, 0⟩) <
      (SdfTransform (Mat4.fromTranslation ⟨1, 0, 0⟩) (SdfSphere Vec3.ZERO 1)).distance ⟨1, 0, 0⟩ := by
  have h1 : (SdfTransform (Mat4.fromTranslation ⟨1, 0, 0⟩)
      (SdfSphere Vec3.ZERO 1)).distance ⟨1, 0, 0⟩ = 1 := by
    simp only [SdfTransform, Mat4.fromTranslation, Mat4.mulVec4, Vec4.scale, Vec4.add4,
      Vec3.extend, Vec4.truncate, SdfSphere, Vec3.ZERO, Vec3.sub_def, Vec3.length, Vec3.dot]
    norm_num
    rw [show (4 : ℝ) = 2 * 2 from by norm_num, Real.sqrt_mul_self (by norm_num : (0:ℝ) ≤ 2)]
    norm_num
  have h2 : (SdfSphere Vec3.ZERO 1).distance ((⟨1, 0, 0⟩ : Vec3) - ⟨1, 0, 0⟩) = -1 := by
    simp only [SdfSphere, Vec3.ZERO, Vec3.sub_def, Vec3.length, Vec3.dot]
    norm_num [Real.sqrt_zero]
  exact ⟨h1, h2, by rw [h1, h2]; norm_num⟩

/-- Claim C2: at normal = (0,0,1) and light_dir = (0,0,1), the main.rs
`lambert_shading` returns `max(dot(n, light_dir), 0) = 1`, while the claimed
formula `max(dot(n, -light_dir), 0)` (implemented by lib.rs) gives 0 — the
main.rs variant omits the negation of the light direction. -/
theorem lambertShadingMain_sign_bug :
    lambertShadingMain ⟨0, 0, 1⟩ ⟨0, 0, 1⟩ = 1 ∧
    lambertShading ⟨0, 0, 1⟩ ⟨0, 0, 1⟩ = 0 ∧
    lambertShading ⟨0, 0, 1⟩ ⟨0, 0, 1⟩ < lambertShadingMain ⟨0, 0, 1⟩ ⟨0, 0, 1⟩ := by
  have h1 : lambertShadingMain ⟨0, 0, 1⟩ ⟨0, 0, 1⟩ = 1 := by
    simp only [lambertShadingMain, Vec3.dot]
    norm_num
  have h2 : lambertShading ⟨0, 0, 1⟩ ⟨0, 0, 1⟩ = 0 := by
    simp only [lambertShading, Vec3.dot, Vec3.neg_def]
    norm_num
  exact ⟨h1, h2, by rw [h1, h2]; norm_num⟩

/-- Claim C8: for every sphere with center c and nonnegative radius r and
every unit vector u, the sphere's distance at the surface point `c + r • u`
is exactly 0 in the real-precision model (hence approximately 0 in f32). -/
theorem sphere_surface_distance_zero (c u : Vec3) (r : ℝ) (hr : 0 ≤ r)
    (hu : u.length = 1) : (SdfSphere c r).distance (c + r • u) = 0 := by
  have hc : c + r • u - c = r • u := by
    simp only [Vec3.add_def, Vec3.smul_def, Vec3.sub_def]
    rw [Vec3.mk.injEq]
    refine ⟨by ring, by ring, by ring⟩
  simp only [SdfSphere]
  rw [hc, Vec3.length_smul r hr u, hu, mul_one, sub_self]

/-- Witness for C8 at a concrete sphere and unit vector. -/
theorem sphere_surface_distance_zero_witness :
    (SdfSphere ⟨1, 2, 3⟩ 5).distance ((⟨1, 2, 3⟩ : Vec3) + (5 : ℝ) • ⟨1, 0, 0⟩) = 0 := by
  refine sphere_surface_distance_zero ⟨1, 2, 3⟩ ⟨1, 0, 0⟩ 5 (by norm_num) ?_
  simp only [Vec3.length, Vec3.dot]
  norm_num

/-- Claim C5: the union's distance at a point is the minimum of the members'
distances there (fold of `min` over the tail starting from the head), given
the f32 invariant that every distance value is at most `f32::MAX`; in
particular the two-member union is the binary minimum. -/
theorem sdfUnion_distance_min (f : Sdf) (fs : List Sdf) (A B : Sdf) (p q : Vec3)
    (hf : f.distance p ≤ f32MAX) (hA : A.distance q ≤ f32MAX) :
    (sdfUnion (f :: fs)).distance p =
      (fs.map (fun g => g.distance p)).foldl min (f.distance p) ∧
    (sdfUnion [A, B]).distance q = min (A.distance q) (B.distance q) := by
  constructor
  · simp only [sdfUnion, List.foldl_cons]
    rw [min_eq_right hf, List.foldl_map]
  · simp only [sdfUnion, List.foldl_cons, List.foldl_nil]
    rw [min_eq_right hA]

/-- Claim C9: for every distance field (including fields that return NaN,
modelled as `none`, or negative distances), ray origin, direction and light
direction, the `cast_ray` loop body is entered at most `MAX_STEPS = 100`
times, and the function is total by construction. -/
theorem castRayF32_steps_le (dist : Option Vec3 → Option ℝ) (start ray lightDir : Vec3) :
    (castRayF32 dist start ray lightDir).2 ≤ MAX_STEPS :=
  castRayF32Aux_count_le dist ray lightDir MAX_STEPS (some 0) (some start)

/-- Claim C1: in the library's `render_scene`, the forward vector is computed
from `camera_up - camera_pos` (second conjunct, definitional), not from
`look_at - camera_pos` as the claim states: at the reference camera the two
differ in the y component (first conjunct, 0 versus 1/sqrt 401).  The main.rs
variant does use `look_at - camera` and matches the claimed value (third
conjunct). -/
theorem renderScene_forward_uses_camera_up :
    (Vec3.normalizeOr (demoScene.look_at - demoScene.camera_pos) Vec3.NEG_Z).y <
      (renderForward demoScene).y ∧
    renderForward demoScene =
      Vec3.normalizeOr (demoScene.camera_up - demoScene.camera_pos) Vec3.NEG_Z ∧
    renderForwardMain demoScene.camera_pos demoScene.look_at = ⟨0, 0, -1⟩ := by
  have hsub1 : demoScene.look_at - demoScene.camera_pos = (⟨0, 0, -20⟩ : Vec3) := by
    simp only [demoScene, Vec3.ZERO, Vec3.sub_def]
    norm_num
  have hlen20 : (⟨0, 0, -20⟩ : Vec3).length = 20 := by
    simp only [Vec3.length, Vec3.dot]
    exact sqrt_eval (by norm_num) (by norm_num)
  have hv : Vec3.normalizeOr ⟨0, 0, -20⟩ Vec3.NEG_Z = ⟨0, 0, -1⟩ := by
    unfold Vec3.normalizeOr
    rw [hlen20, if_neg (by norm_num : ¬((20 : ℝ) = 0))]
    simp only [Vec3.smul_def]
    norm_num
  have hsub2 : demoScene.camera_up - demoScene.camera_pos = (⟨0, 1, -20⟩ : Vec3) := by
    simp only [demoScene, Vec3.sub_def]
    norm_num
  have hpos : (0 : ℝ) < Real.sqrt 401 := Real.sqrt_pos.mpr (by norm_num)
  have hlen401 : (⟨0, 1, -20⟩ : Vec3).length = Real.sqrt 401 := by
    simp only [Vec3.length, Vec3.dot]
    norm_num
  have hfwd : (renderForward demoScene).y = 1 / Real.sqrt 401 := by
    unfold renderForward
    rw [hsub2]
    unfold Vec3.normalizeOr
    rw [hlen401, if_neg (ne_of_gt hpos)]
    simp only [Vec3.smul_def]
    norm_num
  refine ⟨?_, rfl, ?_⟩
  · rw [hsub1, hv, hfwd]
    simp
  · unfold renderForwardMain
    rw [hsub1, hv]

/-- Claim C3, counterexample: at the union of two symmetric unit spheres the
central-difference gradient at the origin is exactly zero, and
`estimate_normal` produces a NaN normal (`none` in the f32-faithful model)
rather than any fallback direction. -/
theorem estimateNormal_no_fallback_cex :
    estimateNormalF32 twoUnitSpheres ⟨0, 0, 0⟩ = none := by
  unfold estimateNormalF32 normalizeF32
  rw [normalGradient_twoUnitSpheres, if_pos length_zero_vec]

/-- Claim C3 (amended): when the central-difference gradient is exactly zero,
`estimate_normal` does not fall back to a default direction — normalizing the
zero vector yields a NaN normal (`none`).  The NaN does enter the shading dot
product, but Rust `f32::max(NaN, 0.0)` returns 0, so glyph selection still
receives the finite intensity 0.1 and picks glyph index 1. -/
theorem estimateNormal_degenerate_nan (s : Sdf) (p lightDir : Vec3)
    (h : normalGradient s p = ⟨0, 0, 0⟩) :
    estimateNormalF32 s p = none ∧
    lambertF32 (estimateNormalF32 s p) lightDir = 0 ∧
    charIndex (0.1 + lambertF32 (estimateNormalF32 s p) lightDir * 0.9) = 1 := by
  have hn : estimateNormalF32 s p = none := by
    unfold estimateNormalF32 normalizeF32
    rw [h, if_pos length_zero_vec]
  have hl : lambertF32 (estimateNormalF32 s p) lightDir = 0 := by
    rw [hn]
    rfl
  refine ⟨hn, hl, ?_⟩
  rw [hl]
  have hfloor : (⌊(3 : ℝ) / 2⌋₊ : ℕ) = 1 := by
    rw [Nat.floor_eq_iff (by norm_num : (0 : ℝ) ≤ 3 / 2)]
    norm_num
  norm_num [charIndex, SYMBOLS, max_def, min_def, hfloor]

/-- Witness for C3's amended theorem at the concrete degenerate field. -/
theorem estimateNormal_degenerate_nan_witness :
    estimateNormalF32 twoUnitSpheres ⟨0, 0, 0⟩ = none ∧
    lambertF32 (estimateNormalF32 twoUnitSpheres ⟨0, 0, 0⟩) ⟨0, 0, -1⟩ = 0 ∧
    charIndex (0.1 + lambertF32 (estimateNormalF32 twoUnitSpheres ⟨0, 0, 0⟩) ⟨0, 0, -1⟩ * 0.9) = 1 :=
  estimateNormal_degenerate_nan twoUnitSpheres ⟨0, 0, 0⟩ ⟨0, 0, -1⟩ normalGradient_twoUnitSpheres

/-- Witness for C5: a concrete two-sphere union evaluated at the origin. -/
theorem sdfUnion_distance_min_witness :
    (sdfUnion [SdfSphere Vec3.ZERO 1, SdfSphere ⟨3, 0, 0⟩ 2]).distance Vec3.ZERO =
      min ((SdfSphere Vec3.ZERO 1).distance Vec3.ZERO)
        ((SdfSphere ⟨3, 0, 0⟩ 2).distance Vec3.ZERO) := by
  have h1 : (SdfSphere Vec3.ZERO 1).distance Vec3.ZERO ≤ f32MAX := by
    simp only [SdfSphere, Vec3.ZERO, Vec3.sub_def, Vec3.length, Vec3.dot, f32MAX]
    norm_num [Real.sqrt_zero]
  exact (sdfUnion_distance_min (SdfSphere Vec3.ZERO 1) [] (SdfSphere Vec3.ZERO 1)
    (SdfSphere ⟨3, 0, 0⟩ 2) Vec3.ZERO Vec3.ZERO h1 h1).2


